import Mathlib

/-!
Verification development for the mmCIF structure builder (mmcif.hh) and the
numeric formatter (sprintf.hpp).  The builder and formatter entry points are
translated from the source; helpers that live in headers outside the provided
sources (cif.hh, numb.hh, model.hh, third_party/stb_sprintf.h) are modelled
from the specification and carry a doc comment saying so.
-/

attribute [local semireducible] Rat.add Rat.mul Rat.inv Rat.sub

namespace Gemmi

/-- Modelled from the spec: cif.hh (not in src) marks a cell as having no value
with one of two distinguished markers; a lookup of such a cell must not raise
and yields a type-appropriate default (spec section 6). -/
def is_null (s : String) : Bool := s == "." || s == "?"

/-- Modelled from the spec: cif::as_string (cif.hh, not in src): a no-value
marker reads as the empty string, any other cell reads as its text. -/
def as_string (s : String) : String := if is_null s then "" else s

/-- Numeric value of a digit list, most significant first. -/
def natOfDigits (cs : List Char) : Nat := cs.foldl (fun a c => 10 * a + (c.toNat - 48)) 0

/-- Modelled from the spec: the numeric-cell grammar of numb.hh (not in src):
an optional sign, decimal digits, and an optional fractional part. -/
def parseNumb (s : String) : Option ℚ :=
  let signAndRest : ℚ × List Char :=
    match s.data with
    | '-' :: r => (-1, r)
    | '+' :: r => (1, r)
    | r => (1, r)
  let sgn := signAndRest.1
  let cs := signAndRest.2
  let ip := cs.takeWhile Char.isDigit
  let rest := cs.dropWhile Char.isDigit
  match rest with
  | [] => if ip.isEmpty then none else some (sgn * (natOfDigits ip : ℚ))
  | '.' :: fr =>
      if fr.all Char.isDigit && !(ip.isEmpty && fr.isEmpty) then
        some (sgn * ((natOfDigits ip : ℚ) + (natOfDigits fr : ℚ) / ((10 ^ fr.length : Nat) : ℚ)))
      else none
  | _ => none

/-- Modelled from the spec: integer-cell grammar of numb.hh (not in src):
an optional sign followed by decimal digits. -/
def parseInt (s : String) : Option Int :=
  let signAndRest : Int × List Char :=
    match s.data with
    | '-' :: r => (-1, r)
    | '+' :: r => (1, r)
    | r => (1, r)
  let sgn := signAndRest.1
  let cs := signAndRest.2
  if cs.isEmpty || !cs.all Char.isDigit then none
  else some (sgn * (natOfDigits cs : Int))

/-- Failure modes of the build (spec section 7).  The two assertion errors model
the two assert statements of the builder pass (mmcif.hh lines 127 and 131),
active only in an asserting (debug) build. -/
inductive BuildError where
  | malformedNumeric (cell : String)
  | assertInsCode
  | assertAuthConsistency
deriving DecidableEq, Repr

/-- Modelled from the spec: cif::as_number on a required numeric cell (numb.hh,
not in src): a no-value marker yields the type-appropriate default 0 (spec
section 6); text that fails to parse raises MalformedNumeric, which propagates
and aborts the whole build (spec section 7). -/
def as_number (s : String) : Except BuildError ℚ :=
  if is_null s then .ok 0
  else
    match parseNumb s with
    | some q => .ok q
    | none => .error (.malformedNumeric s)

/-- Modelled from the spec: cif::as_number with an explicit default (numb.hh,
not in src): a no-value marker yields the given default (spec section 4.1). -/
def as_number_or (s : String) (d : ℚ) : Except BuildError ℚ :=
  if is_null s then .ok d else as_number s

/-- Modelled from the spec: cif::as_int with an explicit default (numb.hh, not
in src): a no-value or unparsable cell yields the default (spec section 4.3). -/
def as_int_or (s : String) (d : Int) : Int :=
  if is_null s then d else (parseInt s).getD d

/-- Modelled from the spec: cif::as_int on a required integer cell (numb.hh,
not in src): text that fails to parse raises MalformedNumeric. -/
def as_int (s : String) : Except BuildError Int :=
  match parseInt s with
  | some n => .ok n
  | none => .error (.malformedNumeric s)

/-- Modelled from the spec: indexing a std::string at position 0; for the empty
string this yields the NUL character (as std::string::operator[] does). -/
def charAt0 (s : String) : Char := s.data.headD (Char.ofNat 0)

/-- Modelled from the spec: the "unknown" sequence-number sentinel
(Residue::UnknownId, model.hh, not in src) is represented as none, per the
design note of spec section 9; a no-value or unparsable cell maps to it. -/
def parseSeqId (s : String) : Option Int :=
  if is_null s then none else parseInt s

/-- Atom of the ownership tree (model.hh, not in src, data model from spec
section 3).  The optional anisotropic components keep the unset sentinel
distinguishable from an explicit zero. -/
structure Atom where
  name : String
  altloc : Char
  charge : Int
  element : String
  pos_x : ℚ
  pos_y : ℚ
  pos_z : ℚ
  occ : ℚ
  b_iso : ℚ
  u11 : Option ℚ
  u22 : Option ℚ
  u33 : Option ℚ
  u12 : Option ℚ
  u13 : Option ℚ
  u23 : Option ℚ
deriving DecidableEq, Repr, Inhabited

/-- Residue (data model from spec section 3). -/
structure Residue where
  seq_id : Option Int
  auth_seq_id : Option Int
  ins_code : Char
  name : String
  atoms : List Atom
deriving DecidableEq, Repr, Inhabited

/-- Chain (data model from spec section 3); the non-owning entity reference is
modelled as the optional entity id. -/
structure Chain where
  name : String
  auth_name : String
  entity : Option String
  residues : List Residue
deriving DecidableEq, Repr, Inhabited

/-- Model (data model from spec section 3). -/
structure Model where
  name : String
  chains : List Chain
deriving DecidableEq, Repr, Inhabited

/-- Entity type vocabulary (spec section 3). -/
inductive EntityType where
  | polymer
  | nonpolymer
  | water
  | unknown
deriving DecidableEq, Repr, Inhabited

/-- Entity (data model from spec section 3). -/
structure Entity where
  id : String
  etype : EntityType
  sequence : List (Int × String)
deriving DecidableEq, Repr, Inhabited

/-- Row-major 3x3 matrix of an NCS operator. -/
structure Matrix33 where
  a11 : ℚ
  a12 : ℚ
  a13 : ℚ
  a21 : ℚ
  a22 : ℚ
  a23 : ℚ
  a31 : ℚ
  a32 : ℚ
  a33 : ℚ
deriving DecidableEq, Repr, Inhabited

/-- Translation vector of an NCS operator. -/
structure Position where
  x : ℚ
  y : ℚ
  z : ℚ
deriving DecidableEq, Repr, Inhabited

/-- NCS operator (mmcif.hh lines 75-82). -/
structure NcsOp where
  given : Bool
  mat : Matrix33
  vec : Position
deriving DecidableEq, Repr, Inhabited

/-- Root of the ownership tree (data model from spec section 3). -/
structure Structure where
  name : String
  cell : Option (List ℚ)
  sg_hm : Option String
  info : List (String × String)
  ncs : List NcsOp
  entities : List Entity
  models : List Model
deriving DecidableEq, Repr, Inhabited

/-- Modelled from the spec: entity_type_from_string (model.hh, not in src):
type from a closed vocabulary, an unrecognized code maps to the unknown
variant and never raises (spec section 4.3). -/
def entity_type_from_string (s : String) : EntityType :=
  if s == "polymer" then .polymer
  else if s == "non-polymer" then .nonpolymer
  else if s == "water" then .water
  else .unknown

/-- Lookup in an insertion-ordered string-keyed map. -/
def lookupKey {α : Type} (k : String) : List (String × α) → Option α
  | [] => none
  | (k1, v) :: t => if k1 == k then some v else lookupKey k t

/-- Insert-or-overwrite in an insertion-ordered string-keyed map (the semantics
of operator[] assignment on the C++ map types used by the source). -/
def insertKey {α : Type} (k : String) (v : α) : List (String × α) → List (String × α)
  | [] => [(k, v)]
  | (k1, v1) :: t => if k1 == k then (k, v) :: t else (k1, v1) :: insertKey k v t

/-- Replace the element at an index, leaving the list unchanged when the index
is out of range; models in-place mutation through a pointer into the tree. -/
def modIdx {α : Type} (f : α → α) : Nat → List α → List α
  | _, [] => []
  | 0, a :: t => f a :: t
  | n + 1, a :: t => a :: modIdx f n t

/-- One row of the _atom_site_anisotrop table, in the column order requested by
get_anisotropic_u (mmcif.hh lines 21-23). -/
structure AnisoRow where
  id : String
  u11 : String
  u22 : String
  u33 : String
  u12 : String
  u13 : String
  u23 : String
deriving DecidableEq, Repr, Inhabited

/-- Six anisotropic tensor components (std::array of float, mmcif.hh line 24). -/
structure AnisoU where
  u11 : ℚ
  u22 : ℚ
  u33 : ℚ
  u12 : ℚ
  u13 : ℚ
  u23 : ℚ
deriving DecidableEq, Repr, Inhabited

/-- Sequencing of fallible per-row parses over a table, in row order;
the propagation of a row error aborts the rest of the pass. -/
def mapExcept {α β : Type} (f : α → Except BuildError β) : List α → Except BuildError (List β)
  | [] => .ok []
  | a :: t => do
      let b ← f a
      let bs ← mapExcept f t
      pure (b :: bs)

/-- Sequencing of a fallible fold over a table, in row order. -/
def foldExcept {σ α : Type} (f : σ → α → Except BuildError σ) : σ → List α → Except BuildError σ
  | s, [] => .ok s
  | s, a :: t => do
      let s1 ← f s a
      foldExcept f s1 t

/-- Six components of one anisotropic row, each parsed individually with
cif::as_number (mmcif.hh lines 26-31). -/
def anisoRowValues (r : AnisoRow) : Except BuildError AnisoU := do
  let a ← as_number r.u11
  let b ← as_number r.u22
  let c ← as_number r.u33
  let d ← as_number r.u12
  let e ← as_number r.u13
  let f ← as_number r.u23
  pure { u11 := a, u22 := b, u33 := c, u12 := d, u13 := e, u23 := f }

/-- One loop iteration of get_anisotropic_u (mmcif.hh lines 25-31): parse the
six components and assign them to the row's id. -/
def anisoStep (m : List (String × AnisoU)) (r : AnisoRow) :
    Except BuildError (List (String × AnisoU)) := do
  let v ← anisoRowValues r
  pure (insertKey r.id v m)

/-- get_anisotropic_u (mmcif.hh lines 19-33): one-shot map from atom serial id
to the six components, assignment overwriting an earlier row of the same id. -/
def get_anisotropic_u (rows : List AnisoRow) :
    Except BuildError (List (String × AnisoU)) :=
  foldExcept anisoStep [] rows

/-- One row of the _struct_ncs_oper table, in the column order requested at
mmcif.hh lines 70-74. -/
structure NcsRow where
  m11 : String
  m12 : String
  m13 : String
  m21 : String
  m22 : String
  m23 : String
  m31 : String
  m32 : String
  m33 : String
  v1 : String
  v2 : String
  v3 : String
  code : String
deriving DecidableEq, Repr, Inhabited

/-- One NCS operator from its row (mmcif.hh lines 75-81): twelve numeric reads
in column order, and the given flag from comparing the code cell, read as a
string, against "given". -/
def parseNcsRow (r : NcsRow) : Except BuildError NcsOp := do
  let a11 ← as_number r.m11
  let a12 ← as_number r.m12
  let a13 ← as_number r.m13
  let a21 ← as_number r.m21
  let a22 ← as_number r.m22
  let a23 ← as_number r.m23
  let a31 ← as_number r.m31
  let a32 ← as_number r.m32
  let a33 ← as_number r.m33
  let x ← as_number r.v1
  let y ← as_number r.v2
  let z ← as_number r.v3
  pure { given := as_string r.code == "given",
         mat := { a11 := a11, a12 := a12, a13 := a13, a21 := a21, a22 := a22,
                  a23 := a23, a31 := a31, a32 := a32, a33 := a33 },
         vec := { x := x, y := y, z := z } }

/-- One row of the _atom_site table, in the 17-column order requested at
mmcif.hh lines 89-106. -/
structure AtomRow where
  id : String
  type_symbol : String
  atom_id : String
  alt_id : String
  comp_id : String
  asym_id : String
  seq_id : String
  ins_code : String
  x : String
  y : String
  z : String
  occupancy : String
  b_iso : String
  charge : String
  auth_seq_id : String
  auth_asym_id : String
  model_num : String
deriving DecidableEq, Repr, Inhabited

/-- The tagged tables of one block that structure_from_cif_block consumes
(spec section 6).  A missing optional table is none; a present table is its
row list.  Single-value tags are pre-gathered into singleVals. -/
structure Block where
  name : String
  cellRow : Option (List String)
  sg_hm : Option String
  singleVals : List (String × String)
  ncsOper : List NcsRow
  anisoTab : List AnisoRow
  atomTab : List AtomRow
  entityTab : List (String × String)
  polySeqTab : List (String × String × String)
  structAsym : Option (List (String × String))
deriving DecidableEq, Repr, Inhabited

/-- Unit-cell reading (mmcif.hh lines 40-47): six numeric cells when the table
is present, nothing otherwise. -/
def parseCellRow : Option (List String) → Except BuildError (Option (List ℚ))
  | none => pure none
  | some cells => do pure (some (← mapExcept as_number cells))

/-- add_info (mmcif.hh lines 50-54): store the tag's first-row value, read as a
string, when the tag is present. -/
def add_info (vals : List (String × String)) (info : List (String × String))
    (tag : String) : List (String × String) :=
  match lookupKey tag vals with
  | some v => insertKey tag (as_string v) info
  | none => info

/-- Legacy deposition-date tag (mmcif.hh line 60). -/
def old_date_tag : String := "_database_PDB_rev.date_original"

/-- Current deposition-date tag (mmcif.hh lines 61-62). -/
def new_date_tag : String := "_pdbx_database_status.recvd_initial_deposition_date"

/-- Metadata gathering of mmcif.hh lines 50-68, including the copy of the
legacy deposition date into the current tag when only the legacy one exists. -/
def gatherInfo (vals : List (String × String)) : List (String × String) :=
  let info0 := ["_entry.id", "_cell.Z_PDB", "_exptl.method", "_struct.title",
                old_date_tag, new_date_tag].foldl (add_info vals) []
  let info1 :=
    if (lookupKey old_date_tag info0).isSome && !(lookupKey new_date_tag info0).isSome then
      insertKey new_date_tag ((lookupKey old_date_tag info0).getD "") info0
    else info0
  ["_struct_keywords.pdbx_keywords", "_struct_keywords.text"].foldl (add_info vals) info1

/-- Modelled from the spec: find_or_add on the model list (model.hh, not in
src): linear scan by key, appending when absent (spec section 4.1 step 1);
returns the updated list and the index of the hit or appended element. -/
def find_or_add_model : List Model → String → List Model × Nat
  | [], nm => ([{ name := nm, chains := [] }], 0)
  | m :: t, nm =>
      if m.name == nm then (m :: t, 0)
      else
        let p := find_or_add_model t nm
        (m :: p.1, p.2 + 1)

/-- Modelled from the spec: find_or_add on a chain list (model.hh, not in
src): linear scan by label, appending when absent (spec section 4.1 step 2). -/
def find_or_add_chain : List Chain → String → List Chain × Nat
  | [], nm => ([{ name := nm, auth_name := "", entity := none, residues := [] }], 0)
  | c :: t, nm =>
      if c.name == nm then (c :: t, 0)
      else
        let p := find_or_add_chain t nm
        (c :: p.1, p.2 + 1)

/-- Modelled from the spec: find_or_add on a residue list (model.hh, not in
src): find-or-append by the full key (sequence number, author sequence number,
insertion code, name) (spec section 4.1 step 4). -/
def find_or_add_residue (seq auth : Option Int) (ins : Char) (nm : String) :
    List Residue → List Residue × Nat
  | [] => ([{ seq_id := seq, auth_seq_id := auth, ins_code := ins, name := nm, atoms := [] }], 0)
  | r :: t =>
      if r.seq_id == seq && r.auth_seq_id == auth && r.ins_code == ins && r.name == nm then
        (r :: t, 0)
      else
        let p := find_or_add_residue seq auth ins nm t
        (r :: p.1, p.2 + 1)

/-- Modelled from the spec: find_or_add on the entity list (model.hh, not in
src): find-or-append by id, tolerating forward references; a fresh entity gets
the unknown type (spec section 4.3). -/
def find_or_add_entity : List Entity → String → List Entity × Nat
  | [], id => ([{ id := id, etype := .unknown, sequence := [] }], 0)
  | e :: t, id =>
      if e.id == id then (e :: t, 0)
      else
        let p := find_or_add_entity t id
        (e :: p.1, p.2 + 1)

/-- State carried across the atom-row loop of mmcif.hh lines 107-109: the
model list under construction and the current model/chain/residue pointers,
modelled as indices. -/
structure LoopState where
  models : List Model
  curM : Option Nat
  curC : Option Nat
  curR : Option Nat
deriving Repr

/-- Residue-boundary decision translated from mmcif.hh lines 123-125: a new
residue starts when no residue is open, the parsed sequence number differs,
the raw residue-name cell differs from the stored name, or the sequence number
is the unknown sentinel and the author number or insertion code differs. -/
def newResidueNeeded (resi : Option Residue) (seq auth : Option Int) (ins : Char)
    (compRaw : String) : Bool :=
  match resi with
  | none => true
  | some r =>
      seq != r.seq_id || compRaw != r.name ||
        (seq == none && (r.auth_seq_id != auth || r.ins_code != ins))

/-- Model bookkeeping of mmcif.hh lines 111-114: on a model change,
find-or-append the model by its raw identifier and reset the current chain. -/
def modelPhase (s : LoopState) (row : AtomRow) : List Model × Nat × Option Nat :=
  match s.curM with
  | some mi =>
      if row.model_num != (s.models.getD mi default).name then
        let p := find_or_add_model s.models row.model_num
        (p.1, p.2, none)
      else (s.models, mi, s.curC)
  | none =>
      let p := find_or_add_model s.models row.model_num
      (p.1, p.2, none)

/-- Chain find-or-append plus author-name recording (mmcif.hh lines 116-118). -/
def chainUpdate (ms : List Model) (mi : Nat) (row : AtomRow) :
    List Model × Nat × Option Nat :=
  let m := ms.getD mi default
  let p := find_or_add_chain m.chains (as_string row.asym_id)
  let cs := modIdx (fun c => { c with auth_name := as_string row.auth_asym_id }) p.2 p.1
  (modIdx (fun mm => { mm with chains := cs }) mi ms, p.2, none)

/-- Chain bookkeeping of mmcif.hh lines 115-119: on a chain change (raw label
differing from the current chain's stored name), find-or-append the chain and
reset the current residue. -/
def chainPhase (ms : List Model) (mi : Nat) (curC curR : Option Nat) (row : AtomRow) :
    List Model × Nat × Option Nat :=
  match curC with
  | some ci =>
      if row.asym_id != ((ms.getD mi default).chains.getD ci default).name then
        chainUpdate ms mi row
      else (ms, ci, curR)
  | none => chainUpdate ms mi row

/-- Store a residue list back into chain ci of model mi. -/
def setResidues (ms : List Model) (mi ci : Nat) (rs : List Residue) : List Model :=
  modIdx (fun m => { m with chains := modIdx (fun c => { c with residues := rs }) ci m.chains }) mi ms

/-- Start of a new residue group (mmcif.hh lines 126-129): the assert that the
raw insertion-code cell is exactly one character, then find-or-append the
residue.  The assert is active only in an asserting (dbg) build. -/
def startResidue (dbg : Bool) (ms : List Model) (mi ci : Nat) (seq auth : Option Int)
    (ins : Char) (row : AtomRow) : Except BuildError (List Model × Nat) :=
  if dbg && row.ins_code.length != 1 then .error .assertInsCode
  else
    let ch := (ms.getD mi default).chains.getD ci default
    let p := find_or_add_residue seq auth ins (as_string row.comp_id) ch.residues
    .ok (setResidues ms mi ci p.1, p.2)

/-- Residue bookkeeping of mmcif.hh lines 120-132: parse the sequence numbers
and insertion code, take the boundary decision, and either start a residue
group or keep the current one (sanity-asserting author consistency). -/
def residuePhase (dbg : Bool) (ms : List Model) (mi ci : Nat) (curR : Option Nat)
    (row : AtomRow) : Except BuildError (List Model × Nat) :=
  let seq := parseSeqId row.seq_id
  let auth := parseSeqId row.auth_seq_id
  let ins := charAt0 (as_string row.ins_code)
  match curR with
  | none => startResidue dbg ms mi ci seq auth ins row
  | some ri =>
      let r := ((ms.getD mi default).chains.getD ci default).residues.getD ri default
      if newResidueNeeded (some r) seq auth ins row.comp_id then
        startResidue dbg ms mi ci seq auth ins row
      else if dbg && !(r.auth_seq_id == auth && r.ins_code == ins) then
        .error .assertAuthConsistency
      else .ok (ms, ri)

/-- The charge ternary of mmcif.hh line 136: 0 on a no-value cell, otherwise
a required integer parse. -/
def parseCharge (s : String) : Except BuildError Int :=
  if is_null s then .ok 0 else as_int s

/-- Atom construction from one row (mmcif.hh lines 133-154), in source order:
charge with explicit null check, required coordinates, defaulted occupancy and
isotropic displacement, then the anisotropic lookup behind the non-empty-map
fast path. -/
def mkAtom (aniso : List (String × AnisoU)) (row : AtomRow) : Except BuildError Atom := do
  let charge ← parseCharge row.charge
  let x ← as_number row.x
  let y ← as_number row.y
  let z ← as_number row.z
  let occ ← as_number_or row.occupancy 1
  let biso ← as_number_or row.b_iso 50
  let base : Atom :=
    { name := as_string row.atom_id
      altloc := charAt0 (as_string row.alt_id)
      charge := charge
      element := as_string row.type_symbol
      pos_x := x, pos_y := y, pos_z := z
      occ := occ, b_iso := biso
      u11 := none, u22 := none, u33 := none, u12 := none, u13 := none, u23 := none }
  if aniso.isEmpty then pure base
  else
    match lookupKey row.id aniso with
    | some u =>
        pure { base with u11 := some u.u11, u22 := some u.u22, u33 := some u.u33,
                         u12 := some u.u12, u13 := some u.u13, u23 := some u.u23 }
    | none => pure base

/-- Append an atom to residue ri of chain ci of model mi (mmcif.hh line 155). -/
def appendAtom (ms : List Model) (mi ci ri : Nat) (a : Atom) : List Model :=
  let fr : Residue → Residue := fun r => { r with atoms := r.atoms ++ [a] }
  let fc : Chain → Chain := fun c => { c with residues := modIdx fr ri c.residues }
  let fm : Model → Model := fun m => { m with chains := modIdx fc ci m.chains }
  modIdx fm mi ms

/-- One iteration of the atom-row loop (mmcif.hh lines 110-156). -/
def stepRow (dbg : Bool) (aniso : List (String × AnisoU)) (s : LoopState)
    (row : AtomRow) : Except BuildError LoopState := do
  let mp := modelPhase s row
  let cp := chainPhase mp.1 mp.2.1 mp.2.2 s.curR row
  let rp ← residuePhase dbg cp.1 mp.2.1 cp.2.1 cp.2.2 row
  let atom ← mkAtom aniso row
  pure { models := appendAtom rp.1 mp.2.1 cp.2.1 rp.2 atom,
         curM := some mp.2.1, curC := some cp.2.1, curR := some rp.2 }

/-- The whole atom-row pass (mmcif.hh lines 107-156). -/
def runAtomPass (dbg : Bool) (aniso : List (String × AnisoU)) (rows : List AtomRow) :
    Except BuildError (List Model) := do
  let fin ← foldExcept (stepRow dbg aniso)
    { models := [], curM := none, curC := none, curR := none } rows
  pure fin.models

/-- The entity list pass (mmcif.hh lines 158-162): append one entity per row. -/
def entityListPass (rows : List (String × String)) : List Entity :=
  rows.map (fun p =>
    { id := as_string p.1, etype := entity_type_from_string (as_string p.2),
      sequence := [] })

/-- One row of the polymer-sequence pass (mmcif.hh lines 164-168): find-or-add
the entity by id and append (position, monomer), the position defaulting to -1
when unparsable. -/
def addPolySeqRow (es : List Entity) (row : String × String × String) : List Entity :=
  let p := find_or_add_entity es (as_string row.1)
  modIdx (fun e => { e with sequence := e.sequence ++ [(as_int_or row.2.1 (-1), as_string row.2.2)] })
    p.2 p.1

/-- Modelled from the spec in part: entity id bound to a chain label, from the
chain-linkage table (mmcif.hh line 174).  TableView::find_row (cif.hh, not in
src) throws on a missing row or an absent table; the catch at mmcif.hh line
176 turns that into an unset reference, modelled by none. -/
def chainEntityId (tab : Option (List (String × String))) (nm : String) : Option String :=
  match tab with
  | none => none
  | some rows =>
      match rows.find? (fun p => p.1 == nm) with
      | some p => some (as_string p.2)
      | none => none

/-- Chain-linkage resolution over one chain list (mmcif.hh lines 171-178),
threading the entity list through find_or_add_entity on each hit. -/
def resolveChains (tab : Option (List (String × String))) :
    List Entity → List Chain → List Entity × List Chain
  | es, [] => (es, [])
  | es, ch :: t =>
      match chainEntityId tab ch.name with
      | some eid =>
          let p := find_or_add_entity es eid
          let q := resolveChains tab p.1 t
          (q.1, { ch with entity := some eid } :: q.2)
      | none =>
          let q := resolveChains tab es t
          (q.1, { ch with entity := none } :: q.2)

/-- Chain-linkage resolution over every model (mmcif.hh lines 171-178). -/
def resolveModels (tab : Option (List (String × String))) :
    List Entity → List Model → List Entity × List Model
  | es, [] => (es, [])
  | es, m :: t =>
      let p := resolveChains tab es m.chains
      let q := resolveModels tab p.1 t
      (q.1, { m with chains := p.2 } :: q.2)

/-- Modelled from the spec: Structure::finish (model.hh, not in src) is the
external finalize step; no structural mutation is expected from this subsystem
(spec section 3). -/
def finish (st : Structure) : Structure := st

/-- structure_from_cif_block (mmcif.hh lines 35-181).  The dbg flag selects an
asserting (debug) build; assert statements compile away when it is false. -/
def structure_from_cif_block (dbg : Bool) (blk : Block) : Except BuildError Structure := do
  let cell ← parseCellRow blk.cellRow
  let ncs ← mapExcept parseNcsRow blk.ncsOper
  let aniso ← get_anisotropic_u blk.anisoTab
  let models ← runAtomPass dbg aniso blk.atomTab
  let entities0 := entityListPass blk.entityTab
  let entities1 := blk.polySeqTab.foldl addPolySeqRow entities0
  let fin := resolveModels blk.structAsym entities1 models
  pure (finish
    { name := blk.name, cell := cell, sg_hm := blk.sg_hm,
      info := gatherInfo blk.singleVals, ncs := ncs,
      entities := fin.1, models := fin.2 })

/-- Discriminator for a failed build. -/
def isErr {α : Type} : Except BuildError α → Bool
  | .error _ => true
  | .ok _ => false

/-- Character of a decimal digit. -/
def digitChar (n : Nat) : Char := Char.ofNat (48 + n)

/-- Decimal digits of a natural number, most significant first; fuel-driven so
that it reduces structurally. -/
def natCharsAux : Nat → Nat → List Char
  | 0, _ => []
  | fuel + 1, n => if n < 10 then [digitChar n] else natCharsAux fuel (n / 10) ++ [digitChar (n % 10)]

/-- Decimal digits of a natural number, most significant first. -/
def natChars (n : Nat) : List Char := natCharsAux (n + 1) n

/-- Exactly p least-significant decimal digits of n, zero-padded on the left;
the fraction field of fixed-notation output. -/
def padDigits : Nat → Nat → List Char
  | 0, _ => []
  | p + 1, n => padDigits p (n / 10) ++ [digitChar (n % 10)]

/-- Absolute value on the embedded numeric domain. -/
def qabs (q : ℚ) : ℚ := if q < 0 then -q else q

/-- Rounding to the nearest integer, halves up (printf rounding of exactly
representable inputs does not affect any stated digit-count property). -/
def roundQ (q : ℚ) : ℤ := Rat.floor (q + 1 / 2)

/-- Integral power of ten on the embedded numeric domain. -/
def qpow10 (e : ℤ) : ℚ :=
  if 0 ≤ e then ((10 ^ e.toNat : Nat) : ℚ) else 1 / ((10 ^ (-e).toNat : Nat) : ℚ)

/-- Number of decimal digits of a natural number, fuel-driven. -/
def digitsCountAux : Nat → Nat → Nat
  | 0, _ => 1
  | fuel + 1, n => if n < 10 then 1 else digitsCountAux fuel (n / 10) + 1

/-- Number of decimal digits of a natural number. -/
def digitsCount (n : Nat) : Nat := digitsCountAux n n

/-- Modelled from the spec: the decimal exponent used by general formatting
(stb_sprintf, third_party, not in src): the largest e with 10^e at most the
magnitude, for nonzero input. -/
def decExp (d : ℚ) : ℤ :=
  let q := qabs d
  let e0 : ℤ := (digitsCount q.num.natAbs : ℤ) - (digitsCount q.den : ℤ)
  let e1 : ℤ := if qpow10 (e0 + 1) ≤ q then e0 + 1 else e0
  if qpow10 e1 ≤ q then e1 else e1 - 1

/-- Modelled from the spec: rounding of a nonzero value to P significant
decimal digits (stb_sprintf, not in src): mantissa and adjusted exponent. -/
def sigRound (P : Nat) (d : ℚ) : Nat × ℤ :=
  let e := decExp d
  let m := (roundQ (qabs d * qpow10 ((P : ℤ) - 1 - e))).toNat
  if 10 ^ P ≤ m then (m / 10, e + 1) else (m, e)

/-- Strip trailing decimal zeros from a mantissa, fuel-driven. -/
def stripTrailAux : Nat → Nat → Nat
  | 0, m => m
  | fuel + 1, m => if m ≠ 0 && m % 10 == 0 then stripTrailAux fuel (m / 10) else m

/-- Strip trailing decimal zeros from a mantissa. -/
def stripTrail (m : Nat) : Nat := stripTrailAux m m

/-- Exponent suffix of scientific notation, sign always shown and the exponent
zero-padded to at least two digits, as stb %g prints it. -/
def expChars (e : ℤ) : List Char :=
  let sgn := if e < 0 then '-' else '+'
  let a := e.natAbs
  let ds := natChars a
  'e' :: sgn :: (if a < 10 then '0' :: ds else ds)

/-- Scientific-notation rendering of a stripped mantissa and exponent. -/
def sciChars (m : Nat) (e : ℤ) : List Char :=
  match natChars m with
  | [] => ['0']
  | c :: rest => c :: ((if rest.isEmpty then [] else '.' :: rest) ++ expChars e)

/-- Fixed-notation rendering of a stripped significant-digit mantissa m whose
leading digit has decimal exponent e. -/
def fixedFromSig (m : Nat) (e : ℤ) : List Char :=
  let ds := natChars m
  let k : ℤ := ds.length
  if e < 0 then '0' :: '.' :: (List.replicate (-(e + 1)).toNat '0' ++ ds)
  else if k ≤ e + 1 then ds ++ List.replicate ((e + 1) - k).toNat '0'
  else ds.take (e + 1).toNat ++ '.' :: ds.drop (e + 1).toNat

/-- Modelled from the spec: general (%g) formatting by stb_sprintf
(third_party, not in src): P significant digits, trailing zeros stripped,
scientific notation when the exponent is below -4 or at least P, locale
independent (spec section 4.4). -/
def generalFormat (P : Nat) (d : ℚ) : List Char :=
  if d = 0 then ['0']
  else
    let sgn := if d < 0 then ['-'] else []
    let p := sigRound P d
    let m := stripTrail p.1
    if p.2 < -4 || (P : ℤ) ≤ p.2 then sgn ++ sciChars m p.2
    else sgn ++ fixedFromSig m p.2

/-- Fixed-notation (printf %.*f) formatting as used at sprintf.hpp line 39:
sign, integer digits, and exactly p fractional digits. -/
def fixedFormat (p : Nat) (d : ℚ) : List Char :=
  let sgn := if d < 0 then ['-'] else []
  let n := (roundQ (qabs d * ((10 ^ p : Nat) : ℚ))).toNat
  sgn ++ natChars (n / 10 ^ p) ++ (if p = 0 then [] else '.' :: padDigits p (n % 10 ^ p))

/-- Ambient locale state that a std::sprintf-based formatter would consult
(decimal point and grouping); made explicit so that locale independence is a
statable property of the formatting functions. -/
structure Locale where
  decimal_point : Char
  thousands_sep : Char
deriving DecidableEq, Repr, Inhabited

/-- to_str(double) (sprintf.hpp lines 23-27): gstb_sprintf "%.9g".
stb_sprintf formats without ever consulting the C locale, so the locale
parameter is ignored. -/
def to_str (_ : Locale) (d : ℚ) : String := String.mk (generalFormat 9 d)

/-- to_str(float) (sprintf.hpp lines 29-33): gstb_sprintf "%.6g", likewise
locale independent. -/
def to_str_f (_ : Locale) (d : ℚ) : String := String.mk (generalFormat 6 d)

/-- to_str_prec (sprintf.hpp lines 35-42): within (-1e8, 1e8) fixed %.*f
formatting with the template precision, otherwise plain %g (default precision
6).  The static_assert confines the precision to 0..6 at compile time,
modelled by the Fin 7 parameter type. -/
def to_str_prec (prec : Fin 7) (d : ℚ) : String :=
  if (-100000000 : ℚ) < d ∧ d < 100000000 then String.mk (fixedFormat prec.val d)
  else String.mk (generalFormat 6 d)

/-- Number of fractional digits shown by a piece of text: the length of the
suffix after the last decimal point, zero when there is none. -/
def fracDigitCount : List Char → Nat
  | [] => 0
  | c :: t => if c = '.' ∧ ¬ ('.' ∈ t) then t.length else fracDigitCount t

/-! ### Inversion lemmas for the error monad -/

theorem bind_ok_inv {α β : Type} {x : Except BuildError α} {f : α → Except BuildError β}
    {b : β} (h : x >>= f = .ok b) : ∃ a, x = .ok a ∧ f a = .ok b := by
  cases x with
  | error e => simp [Bind.bind, Except.bind] at h
  | ok a => exact ⟨a, rfl, by simpa [Bind.bind, Except.bind] using h⟩

theorem bind_error_inv {α β : Type} {x : Except BuildError α} {f : α → Except BuildError β}
    {e : BuildError} (h : x >>= f = .error e) :
    x = .error e ∨ ∃ a, x = .ok a ∧ f a = .error e := by
  cases x with
  | error e1 => left; simpa [Bind.bind, Except.bind] using h
  | ok a => right; exact ⟨a, rfl, by simpa [Bind.bind, Except.bind] using h⟩

theorem pure_ok_inv {β : Type} {b c : β} (h : (pure b : Except BuildError β) = .ok c) :
    b = c := by
  simpa [Pure.pure, Except.pure] using h

theorem isErr_bind {α β : Type} (x : Except BuildError α) (f : α → Except BuildError β) :
    isErr (x >>= f) = true ↔ isErr x = true ∨ ∃ a, x = .ok a ∧ isErr (f a) = true := by
  cases x <;> simp [Bind.bind, Except.bind, isErr]

theorem mapExcept_length {α β : Type} (f : α → Except BuildError β) :
    ∀ (rows : List α) (out : List β), mapExcept f rows = .ok out → out.length = rows.length := by
  intro rows
  induction rows with
  | nil => intro out h; unfold mapExcept at h; cases pure_ok_inv h; rfl
  | cons a t ih =>
      intro out h
      unfold mapExcept at h
      obtain ⟨b, -, h⟩ := bind_ok_inv h
      obtain ⟨bs, hbs, h⟩ := bind_ok_inv h
      cases pure_ok_inv h
      simpa using ih bs hbs

/-- Shape of a successful build: every fallible phase succeeded and the result
is assembled from their outputs (inverting the do-chain of
structure_from_cif_block). -/
theorem builder_ok_parts {dbg : Bool} {blk : Block} {st : Structure}
    (h : structure_from_cif_block dbg blk = .ok st) :
    ∃ cell ncs aniso models,
      parseCellRow blk.cellRow = .ok cell ∧
      mapExcept parseNcsRow blk.ncsOper = .ok ncs ∧
      get_anisotropic_u blk.anisoTab = .ok aniso ∧
      runAtomPass dbg aniso blk.atomTab = .ok models ∧
      st = { name := blk.name, cell := cell, sg_hm := blk.sg_hm,
             info := gatherInfo blk.singleVals, ncs := ncs,
             entities := (resolveModels blk.structAsym
               (blk.polySeqTab.foldl addPolySeqRow (entityListPass blk.entityTab)) models).1,
             models := (resolveModels blk.structAsym
               (blk.polySeqTab.foldl addPolySeqRow (entityListPass blk.entityTab)) models).2 } := by
  unfold structure_from_cif_block at h
  obtain ⟨cell, hcell, h⟩ := bind_ok_inv h
  obtain ⟨ncs, hncs, h⟩ := bind_ok_inv h
  obtain ⟨aniso, haniso, h⟩ := bind_ok_inv h
  obtain ⟨models, hmodels, h⟩ := bind_ok_inv h
  refine ⟨cell, ncs, aniso, models, hcell, hncs, haniso, hmodels, ?_⟩
  cases pure_ok_inv h
  rfl

/-! ### C9 -/

/-- C9: the numeric formatter is deterministic: for every double-width value
(9-significant-digit budget) and float-width value (6-digit budget), formatting
the identical input yields identical text, independent of the ambient locale;
the formatting functions never consult their locale argument. -/
theorem to_str_locale_independent (l1 l2 : Locale) (d : ℚ) :
    to_str l1 d = to_str l2 d ∧ to_str_f l1 d = to_str_f l2 d :=
  ⟨rfl, rfl⟩

/-! ### C10 -/

theorem parseNcsRow_given {r : NcsRow} {op : NcsOp} (h : parseNcsRow r = .ok op) :
    op.given = (as_string r.code == "given") := by
  unfold parseNcsRow at h
  obtain ⟨a, -, h⟩ := bind_ok_inv h
  obtain ⟨a, -, h⟩ := bind_ok_inv h
  obtain ⟨a, -, h⟩ := bind_ok_inv h
  obtain ⟨a, -, h⟩ := bind_ok_inv h
  obtain ⟨a, -, h⟩ := bind_ok_inv h
  obtain ⟨a, -, h⟩ := bind_ok_inv h
  obtain ⟨a, -, h⟩ := bind_ok_inv h
  obtain ⟨a, -, h⟩ := bind_ok_inv h
  obtain ⟨a, -, h⟩ := bind_ok_inv h
  obtain ⟨a, -, h⟩ := bind_ok_inv h
  obtain ⟨a, -, h⟩ := bind_ok_inv h
  obtain ⟨a, -, h⟩ := bind_ok_inv h
  cases pure_ok_inv h
  rfl

/-- C10: for every row of the NCS-operator table, the operator's given flag is
true exactly when the code cell, read as a string, equals "given"; any other
code value (the no-value markers included) yields false, and the operator is
still appended: a successful pass returns one operator per row, and a
successful build stores one operator per row of the table. -/
theorem ncs_code_given_flag :
    (∀ (r : NcsRow) (op : NcsOp), parseNcsRow r = .ok op →
        (op.given = true ↔ as_string r.code = "given")) ∧
    (∀ (rows : List NcsRow) (ops : List NcsOp),
        mapExcept parseNcsRow rows = .ok ops → ops.length = rows.length) ∧
    (∀ (dbg : Bool) (blk : Block) (st : Structure),
        structure_from_cif_block dbg blk = .ok st →
        st.ncs.length = blk.ncsOper.length) := by
  refine ⟨?_, ?_, ?_⟩
  · intro r op h
    rw [parseNcsRow_given h]
    exact beq_iff_eq
  · intro rows ops h
    exact mapExcept_length parseNcsRow rows ops h
  · intro dbg blk st h
    obtain ⟨cell, ncs, aniso, models, -, hncs, -, -, hst⟩ := builder_ok_parts h
    rw [hst]
    exact mapExcept_length parseNcsRow blk.ncsOper ncs hncs

def w10Row : NcsRow :=
  { m11 := "1", m12 := "0", m13 := "0", m21 := "0", m22 := "1", m23 := "0",
    m31 := "0", m32 := "0", m33 := "1", v1 := "0", v2 := "0", v3 := "0", code := "." }

def w10Op : NcsOp :=
  { given := false,
    mat := { a11 := 1, a12 := 0, a13 := 0, a21 := 0, a22 := 1, a23 := 0,
             a31 := 0, a32 := 0, a33 := 1 },
    vec := { x := 0, y := 0, z := 0 } }

theorem ncs_code_given_flag_witness :
    (w10Op.given = true ↔ as_string w10Row.code = "given") :=
  ncs_code_given_flag.1 w10Row w10Op (by rfl)

/-! ### C4 -/

/-- C4: null coercion when building an Atom: a no-value occupancy cell yields
occupancy 1.0, a no-value isotropic-displacement cell yields 50.0, a no-value
formal-charge cell yields 0, and a non-null charge cell is parsed as an
integer (mmcif.hh lines 136-142). -/
theorem atom_null_coercion (aniso : List (String × AnisoU)) (row : AtomRow) (a : Atom)
    (h : mkAtom aniso row = .ok a) :
    (is_null row.occupancy = true → a.occ = 1) ∧
    (is_null row.b_iso = true → a.b_iso = 50) ∧
    (is_null row.charge = true → a.charge = 0) ∧
    (is_null row.charge = false → as_int row.charge = .ok a.charge) := by
  unfold mkAtom at h
  obtain ⟨ch, hch, h⟩ := bind_ok_inv h
  obtain ⟨x, hx, h⟩ := bind_ok_inv h
  obtain ⟨y, hy, h⟩ := bind_ok_inv h
  obtain ⟨z, hz, h⟩ := bind_ok_inv h
  obtain ⟨oc, hoc, h⟩ := bind_ok_inv h
  obtain ⟨bi, hbi, h⟩ := bind_ok_inv h
  have hfields : a.occ = oc ∧ a.b_iso = bi ∧ a.charge = ch := by
    split at h
    · cases pure_ok_inv h
      exact ⟨rfl, rfl, rfl⟩
    · split at h
      · cases pure_ok_inv h
        exact ⟨rfl, rfl, rfl⟩
      · cases pure_ok_inv h
        exact ⟨rfl, rfl, rfl⟩
  obtain ⟨ho, hb, hc⟩ := hfields
  refine ⟨?_, ?_, ?_, ?_⟩
  · intro hnull
    rw [ho]
    unfold as_number_or at hoc
    rw [hnull] at hoc
    simp at hoc
    exact hoc.symm
  · intro hnull
    rw [hb]
    unfold as_number_or at hbi
    rw [hnull] at hbi
    simp at hbi
    exact hbi.symm
  · intro hnull
    rw [hc]
    unfold parseCharge at hch
    rw [hnull] at hch
    simp at hch
    exact hch.symm
  · intro hnn
    rw [hc]
    unfold parseCharge at hch
    rw [hnn] at hch
    simpa using hch

def w4Row : AtomRow :=
  { id := "1", type_symbol := "C", atom_id := "CA", alt_id := ".", comp_id := "ALA",
    asym_id := "A", seq_id := "1", ins_code := "?", x := "1", y := "2", z := "3",
    occupancy := "?", b_iso := ".", charge := "?", auth_seq_id := "1",
    auth_asym_id := "A", model_num := "1" }

def w4Atom : Atom :=
  { name := "CA", altloc := Char.ofNat 0, charge := 0, element := "C",
    pos_x := 1, pos_y := 2, pos_z := 3, occ := 1, b_iso := 50,
    u11 := none, u22 := none, u33 := none, u12 := none, u13 := none, u23 := none }

theorem atom_null_coercion_witness :
    (is_null w4Row.occupancy = true → w4Atom.occ = 1) ∧
    (is_null w4Row.b_iso = true → w4Atom.b_iso = 50) ∧
    (is_null w4Row.charge = true → w4Atom.charge = 0) ∧
    (is_null w4Row.charge = false → as_int w4Row.charge = .ok w4Atom.charge) :=
  atom_null_coercion [] w4Row w4Atom (by rfl)

/-! ### C5 -/

/-- C5: for every atom row whose serial id is a key of the anisotropic map,
all six anisotropic components of the resulting Atom are populated from the
map's entry; for every atom whose id is not in the map (an absent table and
hence empty map included), all six remain at the unset sentinel, which is
distinguishable from an explicit zero because it is not equal to any stored
rational value (mmcif.hh lines 144-154). -/
theorem atom_aniso_population (aniso : List (String × AnisoU)) (row : AtomRow) (a : Atom)
    (h : mkAtom aniso row = .ok a) :
    (∀ u, lookupKey row.id aniso = some u →
        a.u11 = some u.u11 ∧ a.u22 = some u.u22 ∧ a.u33 = some u.u33 ∧
        a.u12 = some u.u12 ∧ a.u13 = some u.u13 ∧ a.u23 = some u.u23) ∧
    (lookupKey row.id aniso = none →
        a.u11 = none ∧ a.u22 = none ∧ a.u33 = none ∧
        a.u12 = none ∧ a.u13 = none ∧ a.u23 = none) ∧
    (∀ q : ℚ, (some q : Option ℚ) ≠ none) := by
  unfold mkAtom at h
  obtain ⟨ch, hch, h⟩ := bind_ok_inv h
  obtain ⟨x, hx, h⟩ := bind_ok_inv h
  obtain ⟨y, hy, h⟩ := bind_ok_inv h
  obtain ⟨z, hz, h⟩ := bind_ok_inv h
  obtain ⟨oc, hoc, h⟩ := bind_ok_inv h
  obtain ⟨bi, hbi, h⟩ := bind_ok_inv h
  refine ⟨?_, ?_, fun q => by simp⟩
  · intro u hu
    split at h
    · cases aniso with
      | nil => simp [lookupKey] at hu
      | cons p t => simp [List.isEmpty] at *
    · rw [hu] at h
      simp only [] at h
      cases pure_ok_inv h
      exact ⟨rfl, rfl, rfl, rfl, rfl, rfl⟩
  · intro hnone
    split at h
    · cases pure_ok_inv h
      exact ⟨rfl, rfl, rfl, rfl, rfl, rfl⟩
    · rw [hnone] at h
      simp only [] at h
      cases pure_ok_inv h
      exact ⟨rfl, rfl, rfl, rfl, rfl, rfl⟩

def w5Row : AtomRow :=
  { id := "9", type_symbol := "N", atom_id := "N", alt_id := "A", comp_id := "GLY",
    asym_id := "B", seq_id := "2", ins_code := "?", x := "1", y := "1", z := "1",
    occupancy := "1", b_iso := "10", charge := ".", auth_seq_id := "2",
    auth_asym_id := "B", model_num := "1" }

def w5U : AnisoU := { u11 := 1, u22 := 2, u33 := 3, u12 := 0, u13 := 5, u23 := 6 }

def w5Atom : Atom :=
  { name := "N", altloc := 'A', charge := 0, element := "N",
    pos_x := 1, pos_y := 1, pos_z := 1, occ := 1, b_iso := 10,
    u11 := some 1, u22 := some 2, u33 := some 3, u12 := some 0,
    u13 := some 5, u23 := some 6 }

theorem atom_aniso_population_witness :
    (∀ u, lookupKey w5Row.id [("9", w5U)] = some u →
        w5Atom.u11 = some u.u11 ∧ w5Atom.u22 = some u.u22 ∧ w5Atom.u33 = some u.u33 ∧
        w5Atom.u12 = some u.u12 ∧ w5Atom.u13 = some u.u13 ∧ w5Atom.u23 = some u.u23) ∧
    (lookupKey w5Row.id [("9", w5U)] = none →
        w5Atom.u11 = none ∧ w5Atom.u22 = none ∧ w5Atom.u33 = none ∧
        w5Atom.u12 = none ∧ w5Atom.u13 = none ∧ w5Atom.u23 = none) ∧
    (∀ q : ℚ, (some q : Option ℚ) ≠ none) :=
  atom_aniso_population [("9", w5U)] w5Row w5Atom (by rfl)

/-! ### C3 -/

theorem lookupKey_insert_self {α : Type} (k : String) (v : α) :
    ∀ l : List (String × α), lookupKey k (insertKey k v l) = some v := by
  intro l
  induction l with
  | nil => simp [insertKey, lookupKey]
  | cons p t ih =>
      obtain ⟨k1, v1⟩ := p
      by_cases hk : (k1 == k) = true
      · simp [insertKey, hk, lookupKey]
      · simp only [insertKey, hk]
        simp only [Bool.false_eq_true, if_false, lookupKey, hk]
        exact ih

theorem lookupKey_insert_ne {α : Type} {j k : String} (hne : j ≠ k) (v : α) :
    ∀ l : List (String × α), lookupKey j (insertKey k v l) = lookupKey j l := by
  intro l
  have hkj : (k == j) = false := by
    simp
    exact fun he => hne he.symm
  induction l with
  | nil => simp [insertKey, lookupKey, hkj]
  | cons p t ih =>
      obtain ⟨k1, v1⟩ := p
      by_cases hk : (k1 == k) = true
      · have hk1 : k1 = k := by simpa using hk
        subst hk1
        simp [insertKey, lookupKey, hkj]
      · simp only [insertKey, hk, Bool.false_eq_true, if_false, lookupKey]
        by_cases hj : (k1 == j) = true
        · simp [hj]
        · simp [hj, ih]

theorem get_aniso_preserve (k : String) :
    ∀ (rows : List AnisoRow) (acc m : List (String × AnisoU)),
      (∀ r1, r1 ∈ rows → r1.id ≠ k) →
      foldExcept anisoStep acc rows = .ok m →
      lookupKey k m = lookupKey k acc := by
  intro rows
  induction rows with
  | nil =>
      intro acc m hn h
      unfold foldExcept at h
      cases pure_ok_inv h
      rfl
  | cons r t ih =>
      intro acc m hn h
      unfold foldExcept at h
      obtain ⟨s1, hs1, h⟩ := bind_ok_inv h
      unfold anisoStep at hs1
      obtain ⟨v, hv, hs1⟩ := bind_ok_inv hs1
      cases pure_ok_inv hs1
      rw [ih _ _ (fun r1 h1 => hn r1 (List.mem_cons_of_mem _ h1)) h]
      exact lookupKey_insert_ne (fun he => hn r (List.mem_cons_self r t) he.symm) v acc

theorem get_aniso_lookup :
    ∀ (rows : List AnisoRow) (acc m : List (String × AnisoU)) (r : AnisoRow),
      r ∈ rows → (∀ r1, r1 ∈ rows → r1.id = r.id → r1 = r) →
      foldExcept anisoStep acc rows = .ok m →
      ∃ v, anisoRowValues r = .ok v ∧ lookupKey r.id m = some v := by
  intro rows
  induction rows with
  | nil => intro acc m r hr; simp at hr
  | cons a t ih =>
      intro acc m r hr huniq h
      unfold foldExcept at h
      obtain ⟨s1, hs1, h⟩ := bind_ok_inv h
      unfold anisoStep at hs1
      obtain ⟨v, hv, hs1⟩ := bind_ok_inv hs1
      cases pure_ok_inv hs1
      by_cases hrt : r ∈ t
      · exact ih _ _ r hrt (fun r1 h1 he => huniq r1 (List.mem_cons_of_mem _ h1) he) h
      · have hra : a = r := by
          rcases List.mem_cons.mp hr with he | ht
          · exact he.symm
          · exact absurd ht hrt
        subst hra
        refine ⟨v, hv, ?_⟩
        have hnone : ∀ r1, r1 ∈ t → r1.id ≠ a.id := by
          intro r1 h1 he
          exact hrt ((huniq r1 (List.mem_cons_of_mem _ h1) he) ▸ h1)
        rw [get_aniso_preserve a.id t _ m hnone h]
        exact lookupKey_insert_self a.id v _

theorem as_number_null {s : String} (h : is_null s = true) : as_number s = .ok 0 := by
  unfold as_number
  rw [h]
  rfl

theorem anisoRowValues_fields {r : AnisoRow} {v : AnisoU} (h : anisoRowValues r = .ok v) :
    as_number r.u11 = .ok v.u11 ∧ as_number r.u22 = .ok v.u22 ∧
    as_number r.u33 = .ok v.u33 ∧ as_number r.u12 = .ok v.u12 ∧
    as_number r.u13 = .ok v.u13 ∧ as_number r.u23 = .ok v.u23 := by
  unfold anisoRowValues at h
  obtain ⟨a, ha, h⟩ := bind_ok_inv h
  obtain ⟨b, hb, h⟩ := bind_ok_inv h
  obtain ⟨c, hc, h⟩ := bind_ok_inv h
  obtain ⟨d, hd, h⟩ := bind_ok_inv h
  obtain ⟨e, he, h⟩ := bind_ok_inv h
  obtain ⟨f, hf, h⟩ := bind_ok_inv h
  cases pure_ok_inv h
  exact ⟨ha, hb, hc, hd, he, hf⟩

/-- C3: in the anisotropic-U loader, every table row is parsed component by
component: when the pass succeeds, each row (unique for its id) contributes an
entry under its id — a no-value component does not skip the row — and every
no-value component of that entry holds the value 0 while the other components
are still stored (mmcif.hh lines 19-33). -/
theorem aniso_null_component_zero (rows : List AnisoRow) (m : List (String × AnisoU))
    (r : AnisoRow) (hok : get_anisotropic_u rows = .ok m) (hmem : r ∈ rows)
    (huniq : ∀ r1, r1 ∈ rows → r1.id = r.id → r1 = r) :
    ∃ v, anisoRowValues r = .ok v ∧ lookupKey r.id m = some v ∧
      (is_null r.u11 = true → v.u11 = 0) ∧ (is_null r.u22 = true → v.u22 = 0) ∧
      (is_null r.u33 = true → v.u33 = 0) ∧ (is_null r.u12 = true → v.u12 = 0) ∧
      (is_null r.u13 = true → v.u13 = 0) ∧ (is_null r.u23 = true → v.u23 = 0) := by
  unfold get_anisotropic_u at hok
  obtain ⟨v, hv, hl⟩ := get_aniso_lookup rows [] m r hmem huniq hok
  obtain ⟨h1, h2, h3, h4, h5, h6⟩ := anisoRowValues_fields hv
  refine ⟨v, hv, hl, ?_, ?_, ?_, ?_, ?_, ?_⟩
  · intro hn
    rw [as_number_null hn] at h1
    injection h1 with h1
    exact h1.symm
  · intro hn
    rw [as_number_null hn] at h2
    injection h2 with h2
    exact h2.symm
  · intro hn
    rw [as_number_null hn] at h3
    injection h3 with h3
    exact h3.symm
  · intro hn
    rw [as_number_null hn] at h4
    injection h4 with h4
    exact h4.symm
  · intro hn
    rw [as_number_null hn] at h5
    injection h5 with h5
    exact h5.symm
  · intro hn
    rw [as_number_null hn] at h6
    injection h6 with h6
    exact h6.symm

def w3Row : AnisoRow :=
  { id := "7", u11 := "1", u22 := "2", u33 := "3", u12 := "4", u13 := "?", u23 := "6" }

theorem aniso_null_component_zero_witness :
    ∃ v, anisoRowValues w3Row = .ok v ∧
      lookupKey w3Row.id [("7", { u11 := 1, u22 := 2, u33 := 3, u12 := 4, u13 := 0, u23 := 6 })] = some v ∧
      (is_null w3Row.u11 = true → v.u11 = 0) ∧ (is_null w3Row.u22 = true → v.u22 = 0) ∧
      (is_null w3Row.u33 = true → v.u33 = 0) ∧ (is_null w3Row.u12 = true → v.u12 = 0) ∧
      (is_null w3Row.u13 = true → v.u13 = 0) ∧ (is_null w3Row.u23 = true → v.u23 = 0) :=
  aniso_null_component_zero [w3Row]
    [("7", { u11 := 1, u22 := 2, u33 := 3, u12 := 4, u13 := 0, u23 := 6 })]
    w3Row (by rfl) (by decide) (by decide)

/-! ### C2 -/

theorem as_number_malformed {s : String} (h1 : is_null s = false)
    (h2 : parseNumb s = none) : as_number s = .error (.malformedNumeric s) := by
  unfold as_number
  rw [h1, h2]
  rfl

theorem mkAtom_isErr {aniso : List (String × AnisoU)} {row : AtomRow}
    (hbad : (is_null row.x = false ∧ parseNumb row.x = none) ∨
            (is_null row.y = false ∧ parseNumb row.y = none) ∨
            (is_null row.z = false ∧ parseNumb row.z = none)) :
    isErr (mkAtom aniso row) = true := by
  unfold mkAtom
  apply (isErr_bind _ _).mpr
  cases hch : parseCharge row.charge with
  | error e => left; simp [isErr]
  | ok ch =>
      right
      refine ⟨ch, rfl, ?_⟩
      apply (isErr_bind _ _).mpr
      rcases hbad with hx | hyz
      · left
        rw [as_number_malformed hx.1 hx.2]
        rfl
      · cases hx1 : as_number row.x with
        | error e => left; simp [isErr]
        | ok xv =>
            right
            refine ⟨xv, rfl, ?_⟩
            apply (isErr_bind _ _).mpr
            rcases hyz with hy | hz
            · left
              rw [as_number_malformed hy.1 hy.2]
              rfl
            · cases hy1 : as_number row.y with
              | error e => left; simp [isErr]
              | ok yv =>
                  right
                  refine ⟨yv, rfl, ?_⟩
                  apply (isErr_bind _ _).mpr
                  left
                  rw [as_number_malformed hz.1 hz.2]
                  rfl

theorem stepRow_isErr {dbg : Bool} {aniso : List (String × AnisoU)} {s : LoopState}
    {row : AtomRow} (h : isErr (mkAtom aniso row) = true) :
    isErr (stepRow dbg aniso s row) = true := by
  simp only [stepRow]
  apply (isErr_bind _ _).mpr
  cases hrp : residuePhase dbg (chainPhase (modelPhase s row).1 (modelPhase s row).2.1
      (modelPhase s row).2.2 s.curR row).1 (modelPhase s row).2.1
      (chainPhase (modelPhase s row).1 (modelPhase s row).2.1
        (modelPhase s row).2.2 s.curR row).2.1
      (chainPhase (modelPhase s row).1 (modelPhase s row).2.1
        (modelPhase s row).2.2 s.curR row).2.2 row with
  | error e => left; simp [isErr]
  | ok rp =>
      right
      refine ⟨rp, rfl, ?_⟩
      exact (isErr_bind _ _).mpr (Or.inl h)

theorem foldAtoms_isErr {dbg : Bool} {aniso : List (String × AnisoU)} (row : AtomRow)
    (hstep : ∀ s, isErr (stepRow dbg aniso s row) = true) :
    ∀ (rows : List AtomRow) (s : LoopState), row ∈ rows →
      isErr (foldExcept (stepRow dbg aniso) s rows) = true := by
  intro rows
  induction rows with
  | nil => intro s h; simp at h
  | cons a t ih =>
      intro s hmem
      unfold foldExcept
      apply (isErr_bind _ _).mpr
      cases hsa : stepRow dbg aniso s a with
      | error e => left; simp [isErr]
      | ok s1 =>
          right
          refine ⟨s1, rfl, ?_⟩
          rcases List.mem_cons.mp hmem with he | hmem1
          · subst he
            have hc := hstep s
            rw [hsa] at hc
            simp [isErr] at hc
          · exact ih s1 hmem1

/-- C2: if a required coordinate cell (an atom's x, y or z position) is
non-null and fails to parse, the build raises an error that propagates and
aborts the whole build; the caller gets the error and no Structure, partial or
otherwise, is returned. -/
theorem malformed_coordinate_aborts (dbg : Bool) (blk : Block) (row : AtomRow)
    (hmem : row ∈ blk.atomTab)
    (hbad : (is_null row.x = false ∧ parseNumb row.x = none) ∨
            (is_null row.y = false ∧ parseNumb row.y = none) ∨
            (is_null row.z = false ∧ parseNumb row.z = none)) :
    isErr (structure_from_cif_block dbg blk) = true := by
  unfold structure_from_cif_block
  apply (isErr_bind _ _).mpr
  cases hc : parseCellRow blk.cellRow with
  | error e => left; simp [isErr]
  | ok cell =>
      right
      refine ⟨cell, rfl, ?_⟩
      apply (isErr_bind _ _).mpr
      cases hn : mapExcept parseNcsRow blk.ncsOper with
      | error e => left; simp [isErr]
      | ok ncs =>
          right
          refine ⟨ncs, rfl, ?_⟩
          apply (isErr_bind _ _).mpr
          cases ha : get_anisotropic_u blk.anisoTab with
          | error e => left; simp [isErr]
          | ok aniso =>
              right
              refine ⟨aniso, rfl, ?_⟩
              apply (isErr_bind _ _).mpr
              left
              unfold runAtomPass
              apply (isErr_bind _ _).mpr
              left
              exact foldAtoms_isErr row
                (fun s => stepRow_isErr (mkAtom_isErr hbad)) blk.atomTab _ hmem

def w2Row : AtomRow :=
  { id := "1", type_symbol := "C", atom_id := "CA", alt_id := ".", comp_id := "ALA",
    asym_id := "A", seq_id := "1", ins_code := "?", x := "abc", y := "2", z := "3",
    occupancy := "1", b_iso := "20", charge := "?", auth_seq_id := "1",
    auth_asym_id := "A", model_num := "1" }

def w2Block : Block :=
  { name := "t", cellRow := none, sg_hm := none, singleVals := [], ncsOper := [],
    anisoTab := [], atomTab := [w2Row], entityTab := [], polySeqTab := [],
    structAsym := none }

theorem malformed_coordinate_aborts_witness :
    isErr (structure_from_cif_block true w2Block) = true :=
  malformed_coordinate_aborts true w2Block w2Row (by decide)
    (Or.inl (by decide))

/-! ### C1 -/

/-- The residue-boundary condition in the words of the spec (section 4.1 step
3): start a new residue when the parsed sequence number differs from the
current residue's, or the residue name differs, or the sequence number is the
unknown sentinel and the author sequence number or the insertion code
differs. -/
def ResidueBoundarySpec (cur : Residue) (seq auth : Option Int) (ins : Char)
    (nm : String) : Prop :=
  seq ≠ cur.seq_id ∨ nm ≠ cur.name ∨
    (seq = none ∧ (auth ≠ cur.auth_seq_id ∨ ins ≠ cur.ins_code))

/-- Per-residue atom counts of the built tree, for stating grouping
scenarios. -/
def resCounts (st : Structure) : List (List (List Nat)) :=
  st.models.map (fun m => m.chains.map (fun c => c.residues.map (fun r => r.atoms.length)))

def mergeRow1 : AtomRow :=
  { id := "1", type_symbol := "C", atom_id := "CA", alt_id := ".", comp_id := "ALA",
    asym_id := "A", seq_id := "1", ins_code := "?", x := "1.0", y := "2.0", z := "3.0",
    occupancy := "1.00", b_iso := "20.0", charge := "?", auth_seq_id := "5",
    auth_asym_id := "A", model_num := "1" }

def mergeRow2 : AtomRow := { mergeRow1 with id := "2", auth_seq_id := "6" }

def mergeBlock : Block :=
  { name := "t", cellRow := none, sg_hm := none, singleVals := [], ncsOper := [],
    anisoTab := [], atomTab := [mergeRow1, mergeRow2], entityTab := [],
    polySeqTab := [], structAsym := none }

def splitRow1 : AtomRow :=
  { mergeRow1 with seq_id := ".", comp_id := "HOH", ins_code := "A", auth_seq_id := "9" }

def splitRow2 : AtomRow := { splitRow1 with id := "2", ins_code := "B" }

def splitBlock : Block :=
  { name := "t", cellRow := none, sg_hm := none, singleVals := [], ncsOper := [],
    anisoTab := [], atomTab := [splitRow1, splitRow2], entityTab := [],
    polySeqTab := [], structAsym := none }

/-- C1: the residue-boundary decision of the builder pass (mmcif.hh lines
123-125) holds exactly when the spec's condition does; in particular, in a
non-asserting build, two consecutive rows with identical known (sequence
number, name) but differing author numbering merge into one residue with both
atoms, and two consecutive rows with unknown sequence number but differing
insertion code split into two residues. -/
theorem residue_boundary_decision :
    (∀ (r : Residue) (seq auth : Option Int) (ins : Char) (nm : String),
        (newResidueNeeded (some r) seq auth ins nm = true ↔
          ResidueBoundarySpec r seq auth ins nm)) ∧
    (structure_from_cif_block false mergeBlock).map resCounts = .ok [[[2]]] ∧
    (structure_from_cif_block false splitBlock).map resCounts = .ok [[[1, 1]]] := by
  refine ⟨?_, by rfl, by rfl⟩
  intro r seq auth ins nm
  unfold newResidueNeeded ResidueBoundarySpec
  simp only [Bool.or_eq_true, Bool.and_eq_true, bne_iff_ne, beq_iff_eq]
  constructor
  · rintro ((h | h) | ⟨h1, h2 | h2⟩)
    · exact Or.inl h
    · exact Or.inr (Or.inl h)
    · exact Or.inr (Or.inr ⟨h1, Or.inl (Ne.symm h2)⟩)
    · exact Or.inr (Or.inr ⟨h1, Or.inr (Ne.symm h2)⟩)
  · rintro (h | h | ⟨h1, h2 | h2⟩)
    · exact Or.inl (Or.inl h)
    · exact Or.inl (Or.inr h)
    · exact Or.inr ⟨h1, Or.inl (Ne.symm h2)⟩
    · exact Or.inr ⟨h1, Or.inr (Ne.symm h2)⟩

/-! ### C6 -/

/-- The per-chain effect of the linkage loop: the entity reference set from the
table lookup. -/
def linkChain (tab : Option (List (String × String))) (ch : Chain) : Chain :=
  { ch with entity := chainEntityId tab ch.name }

/-- The per-model effect of the linkage loop. -/
def linkModel (tab : Option (List (String × String))) (m : Model) : Model :=
  { m with chains := m.chains.map (linkChain tab) }

theorem find_or_add_entity_mem_self (es : List Entity) (k : String) :
    k ∈ (find_or_add_entity es k).1.map Entity.id := by
  induction es with
  | nil => simp [find_or_add_entity]
  | cons e t ih =>
      unfold find_or_add_entity
      by_cases he : (e.id == k) = true
      · rw [if_pos he, List.map_cons]
        have he1 : e.id = k := by simpa using he
        exact List.mem_cons.mpr (Or.inl he1.symm)
      · rw [if_neg he, List.map_cons]
        exact List.mem_cons.mpr (Or.inr ih)

theorem find_or_add_entity_mem_mono (es : List Entity) (k j : String)
    (h : j ∈ es.map Entity.id) : j ∈ (find_or_add_entity es k).1.map Entity.id := by
  induction es with
  | nil => simp at h
  | cons e t ih =>
      unfold find_or_add_entity
      by_cases he : (e.id == k) = true
      · rw [if_pos he]
        exact h
      · rw [if_neg he, List.map_cons]
        rw [List.map_cons] at h
        rcases List.mem_cons.mp h with h1 | h1
        · exact List.mem_cons.mpr (Or.inl h1)
        · exact List.mem_cons.mpr (Or.inr (ih h1))

theorem resolveChains_snd (tab : Option (List (String × String))) :
    ∀ (cs : List Chain) (es : List Entity),
      (resolveChains tab es cs).2 = cs.map (linkChain tab) := by
  intro cs
  induction cs with
  | nil => intro es; rfl
  | cons ch t ih =>
      intro es
      unfold resolveChains
      cases hx : chainEntityId tab ch.name with
      | some eid => simp [hx, ih, linkChain]
      | none => simp [hx, ih, linkChain]

theorem resolveChains_mono (tab : Option (List (String × String))) (j : String) :
    ∀ (cs : List Chain) (es : List Entity), j ∈ es.map Entity.id →
      j ∈ (resolveChains tab es cs).1.map Entity.id := by
  intro cs
  induction cs with
  | nil => intro es h; exact h
  | cons ch t ih =>
      intro es h
      unfold resolveChains
      cases hx : chainEntityId tab ch.name with
      | some eid =>
          simp only []
          exact ih _ (find_or_add_entity_mem_mono es eid j h)
      | none => exact ih _ h

theorem resolveChains_mem (tab : Option (List (String × String))) :
    ∀ (cs : List Chain) (es : List Entity) (ch : Chain), ch ∈ cs →
      ∀ eid, chainEntityId tab ch.name = some eid →
        eid ∈ (resolveChains tab es cs).1.map Entity.id := by
  intro cs
  induction cs with
  | nil => intro es ch h; simp at h
  | cons a t ih =>
      intro es ch hch eid heid
      unfold resolveChains
      rcases List.mem_cons.mp hch with he | hmem
      · subst he
        rw [heid]
        simp only []
        exact resolveChains_mono tab eid t _ (find_or_add_entity_mem_self es eid)
      · cases hx : chainEntityId tab a.name with
        | some e2 =>
            simp only []
            exact ih _ ch hmem eid heid
        | none => exact ih _ ch hmem eid heid

theorem resolveModels_snd (tab : Option (List (String × String))) :
    ∀ (ms : List Model) (es : List Entity),
      (resolveModels tab es ms).2 = ms.map (linkModel tab) := by
  intro ms
  induction ms with
  | nil => intro es; rfl
  | cons m t ih =>
      intro es
      unfold resolveModels
      simp [resolveChains_snd, ih, linkModel]

theorem resolveModels_mono (tab : Option (List (String × String))) (j : String) :
    ∀ (ms : List Model) (es : List Entity), j ∈ es.map Entity.id →
      j ∈ (resolveModels tab es ms).1.map Entity.id := by
  intro ms
  induction ms with
  | nil => intro es h; exact h
  | cons m t ih =>
      intro es h
      unfold resolveModels
      exact ih _ (resolveChains_mono tab j m.chains es h)

theorem resolveModels_mem (tab : Option (List (String × String))) :
    ∀ (ms : List Model) (es : List Entity) (m : Model), m ∈ ms →
      ∀ (ch : Chain), ch ∈ m.chains → ∀ eid, chainEntityId tab ch.name = some eid →
        eid ∈ (resolveModels tab es ms).1.map Entity.id := by
  intro ms
  induction ms with
  | nil => intro es m h; simp at h
  | cons a t ih =>
      intro es m hm ch hch eid heid
      unfold resolveModels
      rcases List.mem_cons.mp hm with he | hmem
      · subst he
        exact resolveModels_mono tab eid t _
          (resolveChains_mem tab m.chains es ch hch eid heid)
      · exact ih _ m hmem ch hch eid heid

/-- C6: chain-to-entity linkage runs after the model/chain tree exists: in a
successful build, every chain of every model carries the entity reference
obtained by looking its label up in the chain-to-entity table — bound to an
entity id present in the entity list (find-or-append) on a hit, unset on a
miss — and when the table is absent every chain's reference is unset; the
linkage step itself raises no error (mmcif.hh lines 170-178). -/
theorem chain_entity_linkage (dbg : Bool) (blk : Block) (st : Structure)
    (h : structure_from_cif_block dbg blk = .ok st) :
    (∀ m, m ∈ st.models → ∀ ch, ch ∈ m.chains →
        ch.entity = chainEntityId blk.structAsym ch.name ∧
        (∀ eid, chainEntityId blk.structAsym ch.name = some eid →
            eid ∈ st.entities.map Entity.id)) ∧
    (blk.structAsym = none → ∀ m, m ∈ st.models → ∀ ch, ch ∈ m.chains →
        ch.entity = none) := by
  obtain ⟨cell, ncs, aniso, models, -, -, -, -, hst⟩ := builder_ok_parts h
  have hmods : st.models = (resolveModels blk.structAsym
      (blk.polySeqTab.foldl addPolySeqRow (entityListPass blk.entityTab)) models).2 := by
    rw [hst]
  have hents : st.entities = (resolveModels blk.structAsym
      (blk.polySeqTab.foldl addPolySeqRow (entityListPass blk.entityTab)) models).1 := by
    rw [hst]
  have main : ∀ m, m ∈ st.models → ∀ ch, ch ∈ m.chains →
      ch.entity = chainEntityId blk.structAsym ch.name ∧
      (∀ eid, chainEntityId blk.structAsym ch.name = some eid →
          eid ∈ st.entities.map Entity.id) := by
    intro m hm ch hch
    rw [hmods, resolveModels_snd] at hm
    obtain ⟨m0, hm0, rfl⟩ := List.mem_map.mp hm
    unfold linkModel at hch
    simp only [] at hch
    obtain ⟨ch0, hch0, rfl⟩ := List.mem_map.mp hch
    constructor
    · rfl
    · intro eid heid
      rw [hents]
      have heid0 : chainEntityId blk.structAsym ch0.name = some eid := heid
      exact resolveModels_mem blk.structAsym models _ m0 hm0 ch0 hch0 eid heid0
  refine ⟨main, ?_⟩
  intro htab m hm ch hch
  rw [(main m hm ch hch).1, htab]
  rfl

def w6Row : AtomRow :=
  { id := "1", type_symbol := "C", atom_id := "CA", alt_id := ".", comp_id := "ALA",
    asym_id := "A", seq_id := "1", ins_code := "?", x := "1", y := "2", z := "3",
    occupancy := "1", b_iso := "20", charge := "?", auth_seq_id := "1",
    auth_asym_id := "A", model_num := "1" }

def w6Block : Block :=
  { name := "t", cellRow := none, sg_hm := none, singleVals := [], ncsOper := [],
    anisoTab := [], atomTab := [w6Row], entityTab := [], polySeqTab := [],
    structAsym := some [("A", "E1")] }

def w6Atom : Atom :=
  { name := "CA", altloc := Char.ofNat 0, charge := 0, element := "C",
    pos_x := 1, pos_y := 2, pos_z := 3, occ := 1, b_iso := 20,
    u11 := none, u22 := none, u33 := none, u12 := none, u13 := none, u23 := none }

def w6Struct : Structure :=
  { name := "t", cell := none, sg_hm := none, info := [], ncs := [],
    entities := [{ id := "E1", etype := .unknown, sequence := [] }],
    models := [{ name := "1",
                 chains := [{ name := "A", auth_name := "A", entity := some "E1",
                              residues := [{ seq_id := some 1, auth_seq_id := some 1,
                                             ins_code := Char.ofNat 0, name := "ALA",
                                             atoms := [w6Atom] }] }] }] }

theorem chain_entity_linkage_witness :
    (∀ m, m ∈ w6Struct.models → ∀ ch, ch ∈ m.chains →
        ch.entity = chainEntityId w6Block.structAsym ch.name ∧
        (∀ eid, chainEntityId w6Block.structAsym ch.name = some eid →
            eid ∈ w6Struct.entities.map Entity.id)) ∧
    (w6Block.structAsym = none → ∀ m, m ∈ w6Struct.models → ∀ ch, ch ∈ m.chains →
        ch.entity = none) :=
  chain_entity_linkage true w6Block w6Struct (by rfl)

/-! ### C7 -/

/-- Errors raised by failed numeric parsing, as opposed to assertion
failures. -/
def NumericErr (e : BuildError) : Prop := ∃ c, e = .malformedNumeric c

theorem as_number_error_shape {s : String} {e : BuildError}
    (h : as_number s = .error e) : NumericErr e := by
  unfold as_number at h
  split at h
  · simp at h
  · split at h
    · simp at h
    · injection h with h
      exact ⟨s, h.symm⟩

theorem as_int_error_shape {s : String} {e : BuildError}
    (h : as_int s = .error e) : NumericErr e := by
  unfold as_int at h
  split at h
  · simp at h
  · injection h with h
    exact ⟨s, h.symm⟩

theorem as_number_or_error_shape {s : String} {d : ℚ} {e : BuildError}
    (h : as_number_or s d = .error e) : NumericErr e := by
  unfold as_number_or at h
  split at h
  · simp at h
  · exact as_number_error_shape h

theorem parseCharge_error_shape {s : String} {e : BuildError}
    (h : parseCharge s = .error e) : NumericErr e := by
  unfold parseCharge at h
  split at h
  · simp at h
  · exact as_int_error_shape h

theorem mkAtom_error_shape {aniso : List (String × AnisoU)} {row : AtomRow}
    {e : BuildError} (h : mkAtom aniso row = .error e) : NumericErr e := by
  unfold mkAtom at h
  obtain h1 | ⟨ch, -, h⟩ := bind_error_inv h
  · exact parseCharge_error_shape h1
  obtain h1 | ⟨x, -, h⟩ := bind_error_inv h
  · exact as_number_error_shape h1
  obtain h1 | ⟨y, -, h⟩ := bind_error_inv h
  · exact as_number_error_shape h1
  obtain h1 | ⟨z, -, h⟩ := bind_error_inv h
  · exact as_number_error_shape h1
  obtain h1 | ⟨oc, -, h⟩ := bind_error_inv h
  · exact as_number_or_error_shape h1
  obtain h1 | ⟨bi, -, h⟩ := bind_error_inv h
  · exact as_number_or_error_shape h1
  split at h
  · simp [Pure.pure, Except.pure] at h
  · split at h <;> simp [Pure.pure, Except.pure] at h

theorem anisoRowValues_error_shape {r : AnisoRow} {e : BuildError}
    (h : anisoRowValues r = .error e) : NumericErr e := by
  unfold anisoRowValues at h
  obtain h1 | ⟨a, -, h⟩ := bind_error_inv h
  · exact as_number_error_shape h1
  obtain h1 | ⟨b, -, h⟩ := bind_error_inv h
  · exact as_number_error_shape h1
  obtain h1 | ⟨c, -, h⟩ := bind_error_inv h
  · exact as_number_error_shape h1
  obtain h1 | ⟨d, -, h⟩ := bind_error_inv h
  · exact as_number_error_shape h1
  obtain h1 | ⟨e1, -, h⟩ := bind_error_inv h
  · exact as_number_error_shape h1
  obtain h1 | ⟨f, -, h⟩ := bind_error_inv h
  · exact as_number_error_shape h1
  simp [Pure.pure, Except.pure] at h

theorem mapExcept_error_shape {α β : Type} {f : α → Except BuildError β}
    (hf : ∀ (a : α) (e : BuildError), f a = .error e → NumericErr e) :
    ∀ (l : List α) (e : BuildError), mapExcept f l = .error e → NumericErr e := by
  intro l
  induction l with
  | nil =>
      intro e h
      unfold mapExcept at h
      simp [Pure.pure, Except.pure] at h
  | cons a t ih =>
      intro e h
      unfold mapExcept at h
      obtain h1 | ⟨b, -, h⟩ := bind_error_inv h
      · exact hf a e h1
      obtain h1 | ⟨bs, -, h⟩ := bind_error_inv h
      · exact ih e h1
      simp [Pure.pure, Except.pure] at h

theorem parseNcsRow_error_shape {r : NcsRow} {e : BuildError}
    (h : parseNcsRow r = .error e) : NumericErr e := by
  unfold parseNcsRow at h
  obtain h1 | ⟨a, -, h⟩ := bind_error_inv h
  · exact as_number_error_shape h1
  obtain h1 | ⟨a, -, h⟩ := bind_error_inv h
  · exact as_number_error_shape h1
  obtain h1 | ⟨a, -, h⟩ := bind_error_inv h
  · exact as_number_error_shape h1
  obtain h1 | ⟨a, -, h⟩ := bind_error_inv h
  · exact as_number_error_shape h1
  obtain h1 | ⟨a, -, h⟩ := bind_error_inv h
  · exact as_number_error_shape h1
  obtain h1 | ⟨a, -, h⟩ := bind_error_inv h
  · exact as_number_error_shape h1
  obtain h1 | ⟨a, -, h⟩ := bind_error_inv h
  · exact as_number_error_shape h1
  obtain h1 | ⟨a, -, h⟩ := bind_error_inv h
  · exact as_number_error_shape h1
  obtain h1 | ⟨a, -, h⟩ := bind_error_inv h
  · exact as_number_error_shape h1
  obtain h1 | ⟨a, -, h⟩ := bind_error_inv h
  · exact as_number_error_shape h1
  obtain h1 | ⟨a, -, h⟩ := bind_error_inv h
  · exact as_number_error_shape h1
  obtain h1 | ⟨a, -, h⟩ := bind_error_inv h
  · exact as_number_error_shape h1
  simp [Pure.pure, Except.pure] at h

theorem parseCellRow_error_shape {o : Option (List String)} {e : BuildError}
    (h : parseCellRow o = .error e) : NumericErr e := by
  cases o with
  | none => simp [parseCellRow, Pure.pure, Except.pure] at h
  | some cells =>
      unfold parseCellRow at h
      obtain h1 | ⟨vs, -, h⟩ := bind_error_inv h
      · exact mapExcept_error_shape (fun a e1 h1 => as_number_error_shape h1) cells e h1
      simp [Pure.pure, Except.pure] at h

theorem anisoStep_error_shape {m : List (String × AnisoU)} {r : AnisoRow}
    {e : BuildError} (h : anisoStep m r = .error e) : NumericErr e := by
  unfold anisoStep at h
  obtain h1 | ⟨v, -, h⟩ := bind_error_inv h
  · exact anisoRowValues_error_shape h1
  simp [Pure.pure, Except.pure] at h

theorem get_aniso_error_shape :
    ∀ (rows : List AnisoRow) (acc : List (String × AnisoU)) (e : BuildError),
      foldExcept anisoStep acc rows = .error e → NumericErr e := by
  intro rows
  induction rows with
  | nil =>
      intro acc e h
      unfold foldExcept at h
      simp at h
  | cons r t ih =>
      intro acc e h
      unfold foldExcept at h
      obtain h1 | ⟨s1, -, h⟩ := bind_error_inv h
      · exact anisoStep_error_shape h1
      exact ih s1 e h

theorem startResidue_not_insCode {dbg : Bool} {ms : List Model} {mi ci : Nat}
    {seq auth : Option Int} {ins : Char} {row : AtomRow}
    (hlen : row.ins_code.length = 1) :
    startResidue dbg ms mi ci seq auth ins row ≠ .error .assertInsCode := by
  unfold startResidue
  rw [hlen]
  simp

theorem residuePhase_not_insCode {dbg : Bool} {ms : List Model} {mi ci : Nat}
    {curR : Option Nat} {row : AtomRow} (hlen : row.ins_code.length = 1) :
    residuePhase dbg ms mi ci curR row ≠ .error .assertInsCode := by
  unfold residuePhase
  cases curR with
  | none => exact startResidue_not_insCode hlen
  | some ri =>
      dsimp only
      split
      · exact startResidue_not_insCode hlen
      · split
        · intro hc
          injection hc with hc
          exact BuildError.noConfusion hc
        · simp

theorem stepRow_not_insCode {dbg : Bool} {aniso : List (String × AnisoU)}
    {s : LoopState} {row : AtomRow} (hlen : row.ins_code.length = 1) :
    stepRow dbg aniso s row ≠ .error .assertInsCode := by
  intro h
  simp only [stepRow] at h
  obtain h1 | ⟨rp, -, h⟩ := bind_error_inv h
  · exact residuePhase_not_insCode hlen h1
  obtain h1 | ⟨atom, -, h⟩ := bind_error_inv h
  · obtain ⟨c, hc⟩ := mkAtom_error_shape h1
    exact BuildError.noConfusion hc
  simp [Pure.pure, Except.pure] at h

theorem foldAtoms_not_insCode {dbg : Bool} {aniso : List (String × AnisoU)} :
    ∀ (rows : List AtomRow) (s : LoopState),
      (∀ row, row ∈ rows → row.ins_code.length = 1) →
      foldExcept (stepRow dbg aniso) s rows ≠ .error .assertInsCode := by
  intro rows
  induction rows with
  | nil =>
      intro s hall
      unfold foldExcept
      simp
  | cons a t ih =>
      intro s hall h
      unfold foldExcept at h
      obtain h1 | ⟨s1, -, h⟩ := bind_error_inv h
      · exact stepRow_not_insCode (hall a (List.mem_cons_self a t)) h1
      exact ih s1 (fun row hr => hall row (List.mem_cons_of_mem _ hr)) h

def c7Row1 : AtomRow :=
  { id := "1", type_symbol := "C", atom_id := "CA", alt_id := ".", comp_id := "ALA",
    asym_id := "A", seq_id := "1", ins_code := "?", x := "1", y := "2", z := "3",
    occupancy := "1", b_iso := "20", charge := "?", auth_seq_id := "1",
    auth_asym_id := "A", model_num := "1" }

def c7Row2 : AtomRow := { c7Row1 with id := "2", auth_seq_id := "2" }

def c7Block : Block :=
  { name := "t", cellRow := none, sg_hm := none, singleVals := [], ncsOper := [],
    anisoTab := [], atomTab := [c7Row1, c7Row2], entityTab := [], polySeqTab := [],
    structAsym := none }

/-- C7 counterexample: a block whose alt-loc and insertion-code cells are all
exactly one character, yet the asserting build fails on the author-numbering
sanity assertion (mmcif.hh line 131), because two rows with the same known
sequence number and name disagree on the author sequence number; so the
one-character precondition does not make every assertion of the builder pass
hold. -/
theorem assertion_precondition_counterexample :
    (∀ row, row ∈ c7Block.atomTab → row.alt_id.length = 1 ∧ row.ins_code.length = 1) ∧
    structure_from_cif_block true c7Block = .error .assertAuthConsistency :=
  ⟨by decide, by rfl⟩

def c7BadRow : AtomRow := { c7Row1 with ins_code := "AB" }

def c7BadBlock : Block := { c7Block with atomTab := [c7BadRow] }

/-- C7 amended: the builder pass assertion-checks only the raw insertion-code
cell, at the start of a residue group, where a cell that is not exactly one
character is a precondition failure; under the precondition that every row's
insertion-code cell is exactly one character that assertion never fails (in
any build of any block), but the author-numbering sanity assertion of the
merged-group branch can still fail, so not every assertion is covered by the
one-character precondition; the alt-loc cell is reduced to its first character
without any assertion. -/
theorem ins_code_assertion_amended :
    (∀ (dbg : Bool) (blk : Block),
        (∀ row, row ∈ blk.atomTab → row.ins_code.length = 1) →
        structure_from_cif_block dbg blk ≠ .error .assertInsCode) ∧
    structure_from_cif_block true c7BadBlock = .error .assertInsCode := by
  constructor
  · intro dbg blk hall h
    unfold structure_from_cif_block at h
    obtain h1 | ⟨cell, -, h⟩ := bind_error_inv h
    · obtain ⟨c, hc⟩ := parseCellRow_error_shape h1
      exact BuildError.noConfusion hc
    obtain h1 | ⟨ncs, -, h⟩ := bind_error_inv h
    · obtain ⟨c, hc⟩ := mapExcept_error_shape
        (fun r e1 he => parseNcsRow_error_shape he) blk.ncsOper _ h1
      exact BuildError.noConfusion hc
    obtain h1 | ⟨aniso, -, h⟩ := bind_error_inv h
    · unfold get_anisotropic_u at h1
      obtain ⟨c, hc⟩ := get_aniso_error_shape blk.anisoTab [] _ h1
      exact BuildError.noConfusion hc
    obtain h1 | ⟨models, -, h⟩ := bind_error_inv h
    · unfold runAtomPass at h1
      obtain h2 | ⟨fin, -, h1⟩ := bind_error_inv h1
      · exact foldAtoms_not_insCode blk.atomTab _ hall h2
      · simp [Pure.pure, Except.pure] at h1
    simp [Pure.pure, Except.pure] at h
  · rfl

def w7Row : AtomRow := { c7Row1 with id := "9", asym_id := "W", auth_asym_id := "W" }

def w7Block : Block := { c7Block with atomTab := [w7Row] }

theorem ins_code_assertion_amended_witness :
    structure_from_cif_block true w7Block ≠ .error .assertInsCode :=
  ins_code_assertion_amended.1 true w7Block (by decide)

/-! ### C8 -/

theorem digitChar_ne_dot {n : Nat} (h : n < 10) : digitChar n ≠ '.' := by
  interval_cases n <;> decide

theorem natCharsAux_no_dot : ∀ (fuel n : Nat), '.' ∉ natCharsAux fuel n := by
  intro fuel
  induction fuel with
  | zero => intro n; simp [natCharsAux]
  | succ f ih =>
      intro n
      simp only [natCharsAux]
      by_cases hlt : n < 10
      · rw [if_pos hlt]
        intro hmem
        exact digitChar_ne_dot hlt (List.mem_singleton.mp hmem).symm
      · rw [if_neg hlt]
        intro hmem
        rcases List.mem_append.mp hmem with h1 | h1
        · exact ih (n / 10) h1
        · exact digitChar_ne_dot (Nat.mod_lt n (by omega))
            (List.mem_singleton.mp h1).symm

theorem natChars_no_dot (n : Nat) : '.' ∉ natChars n :=
  natCharsAux_no_dot (n + 1) n

theorem padDigits_no_dot : ∀ (p n : Nat), '.' ∉ padDigits p n := by
  intro p
  induction p with
  | zero => intro n; simp [padDigits]
  | succ q ih =>
      intro n
      simp only [padDigits]
      intro hmem
      rcases List.mem_append.mp hmem with h1 | h1
      · exact ih (n / 10) h1
      · exact digitChar_ne_dot (Nat.mod_lt n (by omega))
          (List.mem_singleton.mp h1).symm

theorem padDigits_length : ∀ (p n : Nat), (padDigits p n).length = p := by
  intro p
  induction p with
  | zero => intro n; rfl
  | succ q ih => intro n; simp [padDigits, ih]

theorem fracDigitCount_no_dot : ∀ l : List Char, '.' ∉ l → fracDigitCount l = 0 := by
  intro l
  induction l with
  | nil => intro h; rfl
  | cons c t ih =>
      intro h
      unfold fracDigitCount
      have hcond : ¬(c = '.' ∧ ¬ ('.' ∈ t)) := by
        rintro ⟨hc, -⟩
        exact h (hc ▸ List.mem_cons_self c t)
      rw [if_neg hcond]
      exact ih (fun hm => h (List.mem_cons_of_mem _ hm))

theorem fracDigitCount_append (suf : List Char) (hsuf : '.' ∉ suf) :
    ∀ pre : List Char, '.' ∉ pre →
      fracDigitCount (pre ++ '.' :: suf) = suf.length := by
  intro pre
  induction pre with
  | nil =>
      intro h
      simp only [List.nil_append]
      unfold fracDigitCount
      rw [if_pos ⟨rfl, hsuf⟩]
  | cons c t ih =>
      intro hpre
      have hc : c ≠ '.' := fun he => hpre (he ▸ List.mem_cons_self c t)
      simp only [List.cons_append]
      unfold fracDigitCount
      have hcond : ¬(c = '.' ∧ ¬ ('.' ∈ t ++ '.' :: suf)) := by
        rintro ⟨hc1, -⟩
        exact hc hc1
      rw [if_neg hcond]
      exact ih (fun hm => hpre (List.mem_cons_of_mem _ hm))

theorem sign_no_dot (d : ℚ) : '.' ∉ (if d < 0 then ['-'] else []) := by
  split <;> simp

theorem fixedFormat_eq (p : Nat) (d : ℚ) :
    fixedFormat p d =
      (if d < 0 then ['-'] else []) ++
        natChars ((roundQ (qabs d * ((10 ^ p : Nat) : ℚ))).toNat / 10 ^ p) ++
        (if p = 0 then []
         else '.' :: padDigits p ((roundQ (qabs d * ((10 ^ p : Nat) : ℚ))).toNat % 10 ^ p)) :=
  rfl

theorem fixedFormat_fracDigits (p : Nat) (d : ℚ) :
    fracDigitCount (fixedFormat p d) = p := by
  rw [fixedFormat_eq]
  by_cases hp : p = 0
  · subst hp
    rw [if_pos rfl]
    apply fracDigitCount_no_dot
    intro hmem
    rw [List.append_nil] at hmem
    rcases List.mem_append.mp hmem with h1 | h1
    · exact sign_no_dot d h1
    · exact natChars_no_dot _ h1
  · rw [if_neg hp]
    have hpre : '.' ∉ (if d < 0 then ['-'] else []) ++
        natChars ((roundQ (qabs d * ((10 ^ p : Nat) : ℚ))).toNat / 10 ^ p) := by
      intro hmem
      rcases List.mem_append.mp hmem with h1 | h1
      · exact sign_no_dot d h1
      · exact natChars_no_dot _ h1
    rw [fracDigitCount_append _ (padDigits_no_dot _ _) _ hpre]
    exact padDigits_length _ _

theorem qabs_lt_iff {d c : ℚ} (hc : 0 < c) : qabs d < c ↔ (-c < d ∧ d < c) := by
  unfold qabs
  by_cases hd : d < 0
  · rw [if_pos hd]
    constructor
    · intro h
      constructor <;> linarith
    · rintro ⟨h1, h2⟩
      linarith
  · rw [if_neg hd]
    constructor
    · intro h
      constructor <;> linarith
    · rintro ⟨h1, h2⟩
      linarith

/-- C8 amended: for every compile-time precision 0..6 (the static_assert is
modelled by the Fin 7 parameter type) and every value of magnitude strictly
below 1e8, the fixed-precision formatter emits exactly that many fractional
digits; it falls back to general %g formatting exactly when the magnitude is
at least 1e8 (the source tests the open interval (-1e8, 1e8), so the boundary
value itself already falls back). -/
theorem to_str_prec_digits (p : Fin 7) (d : ℚ) :
    (qabs d < 100000000 → fracDigitCount (to_str_prec p d).data = p.val) ∧
    (100000000 ≤ qabs d → to_str_prec p d = String.mk (generalFormat 6 d)) := by
  constructor
  · intro hlt
    unfold to_str_prec
    rw [if_pos ((qabs_lt_iff (by norm_num)).mp hlt)]
    exact fixedFormat_fracDigits p.val d
  · intro hge
    unfold to_str_prec
    have hcond : ¬((-100000000 : ℚ) < d ∧ d < 100000000) := by
      rintro ⟨h1, h2⟩
      have := (qabs_lt_iff (c := (100000000 : ℚ)) (by norm_num)).mpr ⟨h1, h2⟩
      linarith
    rw [if_neg hcond]

theorem to_str_prec_digits_witness :
    fracDigitCount (to_str_prec 3 (3 / 2 : ℚ)).data = (3 : Fin 7).val :=
  (to_str_prec_digits 3 (3 / 2)).1 (by decide)

/-- C8 counterexample: at the boundary value 1e8 the magnitude does not exceed
1e8, yet to_str_prec already falls back to general formatting (the source
tests the open interval (-1e8, 1e8)), and the fallback output differs from
fixed-notation output: the claim that the fallback happens only when the
magnitude exceeds 1e8 is false. -/
theorem fixed_precision_boundary_counterexample :
    ¬ (100000000 < qabs (100000000 : ℚ)) ∧
    to_str_prec 3 (100000000 : ℚ) = String.mk (generalFormat 6 100000000) ∧
    to_str_prec 3 (100000000 : ℚ) ≠ String.mk (fixedFormat 3 (100000000 : ℚ)) :=
  ⟨by decide, by rfl, by decide⟩

end Gemmi

